import Mathlib

/-!
Shallow embedding of `backup_releases.py` (RipeStore/backup): a sequential
script that mirrors the latest release of each configured upstream repository
into a backup repository as an encrypted 7z archive.

Strings are modelled as `List Char` (the ASCII fragment: Python's `\w` and
`str.strip()` also cover non-ASCII word/space characters, which no claim
exercises). Machine-level concerns (HTTP, filesystem) appear as explicit
oracle inputs; Python exceptions are `Except`.
-/

set_option maxRecDepth 10000
set_option autoImplicit false

abbrev Str := List Char

/-- ASCII fragment of the whitespace set stripped by Python `str.strip()`. -/
def pyIsSpace (c : Char) : Bool :=
  c = ' ' || c = '\t' || c = '\n' || c = '\r' || c = '\x0b' || c = '\x0c'

/-- ASCII fragment of Python's regex class `\w`: letters, digits, underscore. -/
def pyIsWord (c : Char) : Bool :=
  c.isAlpha || c.isDigit || c = '_'

/-- Characters kept by `re.sub(r"[^\w\.-]+", "_", s)`: word chars, dot, hyphen. -/
def allowedChar (c : Char) : Bool :=
  pyIsWord c || c = '.' || c = '-'

/-- The separator set of Python `strip("._-")` in `sanitize_for_tag`. -/
def isTagSep (c : Char) : Bool :=
  c = '.' || c = '_' || c = '-'

/-- Python `str.rstrip` with the set described by `p`: drop the maximal
trailing run of characters satisfying `p`. -/
def rstripBy (p : Char → Bool) : Str → Str
  | [] => []
  | c :: rest =>
    if rstripBy p rest = [] && p c then [] else c :: rstripBy p rest

/-- Python `str.lstrip` with the set described by `p`. -/
def lstripBy (p : Char → Bool) (s : Str) : Str :=
  s.dropWhile p

/-- Python `str.strip` with the set described by `p`: both ends. -/
def stripBy (p : Char → Bool) (s : Str) : Str :=
  rstripBy p (lstripBy p s)

/-- Python `s.strip()` (no argument: whitespace). -/
def pyStrip (s : Str) : Str :=
  stripBy pyIsSpace s

/-- Python `s.strip("._-")`. -/
def stripSeps (s : Str) : Str :=
  stripBy isTagSep s

/-- Python `s.rstrip("._-")`. -/
def rstripSeps (s : Str) : Str :=
  rstripBy isTagSep s

/-- Python truthiness-based `x or default` for an optional string:
`None` and `""` are falsy. -/
def pyOrStr (x : Option Str) (default : Str) : Str :=
  match x with
  | some s => if s = [] then default else s
  | none => default

/-- Python `x or y` on two optional strings, result used for a later
truthiness test: returns the first truthy string, if any. -/
def pyOrOpt (x y : Option Str) : Option Str :=
  match x with
  | some s => if s = [] then (match y with
      | some s2 => if s2 = [] then none else some s2
      | none => none) else some s
  | none => match y with
      | some s2 => if s2 = [] then none else some s2
      | none => none

def unknownStr : Str := "unknown".toList

/-- Python values occurring in a parsed targets JSON entry (fragment
sufficient for the claims: strings, ints, bools, None). -/
inductive PyVal where
  | vStr : Str → PyVal
  | vInt : Int → PyVal
  | vBool : Bool → PyVal
  | vNone : PyVal
deriving DecidableEq

/-- Python `bool(v)`. -/
def pyTruthy : PyVal → Bool
  | PyVal.vStr s => s ≠ []
  | PyVal.vInt n => n ≠ 0
  | PyVal.vBool b => b
  | PyVal.vNone => false

/-- A Python dict as an association list (keys unique in parsed JSON;
lookup takes the first match). -/
abbrev PyDict := List (Str × PyVal)

/-- Python `t.get(k)` / `t[k]` (as `Option`); `k in t` is `(getKey t k).isSome`. -/
def getKey : PyDict → Str → Option PyVal
  | [], _ => none
  | (k, v) :: rest, key => if k = key then some v else getKey rest key

/-- Python exceptions this script can raise per target. -/
inductive PyExn where
  | attributeError
  | runtimeError
  | calledProcessError
deriving DecidableEq

def keyRepo : Str := "repo".toList
def keyOwner : Str := "owner".toList
def keyUser : Str := "user".toList

/-- The `allow_keys` list of `parse_target`. -/
def allowKeys : List Str :=
  ["allow_prerelease".toList, "allow_prereleases".toList,
   "include_prerelease".toList, "include_prereleases".toList,
   "prerelease".toList]

/-- The `for k in allow_keys: if k in t: allow = bool(t.get(k)); break`
prologue of `parse_target`. -/
def parseAllow (t : PyDict) : Bool :=
  match allowKeys.find? (fun k => (getKey t k).isSome) with
  | some k => pyTruthy ((getKey t k).getD PyVal.vNone)
  | none => false

/-- Python `r.split("/", 1)` for a string known to contain a slash:
the parts before and after the first `'/'`. -/
def splitFirstSlash : Str → Str × Str
  | [] => ([], [])
  | c :: rest =>
    if c = '/' then ([], rest)
    else
      let p := splitFirstSlash rest
      (c :: p.1, p.2)

/-- `parse_target(t)` from `backup_releases.py`. Result:
`Except.error` models an uncaught `AttributeError` (calling `.strip()` on a
non-string value), `.ok none` the `(None, None, None)` skip triple, and
`.ok (some (owner, repo, allow))` a successful parse. -/
def parse_target (t : PyDict) : Except PyExn (Option (Str × Str × Bool)) :=
  let allow := parseAllow t
  match getKey t keyRepo with
  | some (PyVal.vStr r0) =>
    let r := pyStrip r0
    if '/' ∈ r then
      let p := splitFirstSlash r
      Except.ok (some (pyStrip p.1, pyStrip p.2, allow))
    else
      let a := (getKey t keyOwner).getD PyVal.vNone
      let ownerVal := if pyTruthy a then a else (getKey t keyUser).getD PyVal.vNone
      if pyTruthy ownerVal then
        match ownerVal with
        | PyVal.vStr o => Except.ok (some (pyStrip o, r, allow))
        | _ => Except.error PyExn.attributeError
      else
        Except.ok none
  | some _ =>
    -- "repo" present but not a string: the elif branch calls
    -- t["owner"].strip() and t["repo"].strip(); with "repo" non-string one
    -- of the two .strip() calls raises whenever "owner" is present.
    if (getKey t keyOwner).isSome then Except.error PyExn.attributeError
    else Except.ok none
  | none => Except.ok none

/-- `rt.lower().startswith("v")`: only the first character matters, and the
only characters whose lowercase form is `v` are `v` and `V`. -/
def startsWithVee (s : Str) : Bool :=
  match s with
  | c :: _ => c = 'v' || c = 'V'
  | [] => false

/-- `normalize_tag(raw_tag)`: empty is falsy and maps to `"unknown"`;
otherwise strip whitespace and drop one leading `v`/`V` (`rt[1:]`). -/
def normalize_tag (raw_tag : Str) : Str :=
  if raw_tag = [] then unknownStr
  else if startsWithVee (pyStrip raw_tag) then (pyStrip raw_tag).tail
  else pyStrip raw_tag

/-- State machine for `re.sub(r"[^\w\.-]+", "_", s)`: a maximal run of
disallowed characters becomes a single underscore. `inBad` records whether
the previous character belonged to a (replaced) disallowed run. -/
def subNonWordAux : Bool → Str → Str
  | _, [] => []
  | inBad, c :: rest =>
    if allowedChar c then c :: subNonWordAux false rest
    else if inBad then subNonWordAux true rest
    else '_' :: subNonWordAux true rest

def subNonWord (s : Str) : Str := subNonWordAux false s

/-- State machine for `re.sub(r"_{2,}", "_", s)`: collapse each underscore
run to a single underscore (runs of one are unchanged by the regex, so the
uniform collapse is extensionally identical). -/
def collapseUnderscoresAux : Bool → Str → Str
  | _, [] => []
  | prevU, c :: rest =>
    if c = '_' then
      if prevU then collapseUnderscoresAux true rest
      else '_' :: collapseUnderscoresAux true rest
    else c :: collapseUnderscoresAux false rest

def collapseUnderscores (s : Str) : Str := collapseUnderscoresAux false s

/-- `sanitize_for_tag(s, max_len=80)` from `backup_releases.py`. -/
def sanitize_for_tag (s : Str) (max_len : Nat := 80) : Str :=
  if s = [] then unknownStr
  else
    let s1 := subNonWord s
    let s2 := collapseUnderscores s1
    let s3 := stripSeps s2
    let s4 := if max_len < s3.length then rstripSeps (s3.take max_len) else s3
    if s4 = [] then unknownStr else s4

/-- A release author object (JSON fields may be absent or null). The `name`
field is called `aname` to avoid clashing with structure syntax. -/
structure Author where
  login : Option Str
  aname : Option Str
deriving DecidableEq

/-- A release asset (fragment used by the script). -/
structure Asset where
  name : Option Str
  browser_download_url : Option Str
  url : Option Str
  size : Nat
deriving DecidableEq

/-- An upstream release object (fragment used by the script). `draft` and
`prerelease` are the truthiness of the corresponding JSON fields. -/
structure Release where
  tag_name : Option Str
  name : Option Str
  body : Option Str
  draft : Bool
  prerelease : Bool
  published_at : Option Str
  created_at : Option Str
  html_url : Option Str
  author : Option Author
  assets : List Asset
deriving DecidableEq

/-- `release.get("tag_name") or release.get("name") or "unknown"`. -/
def releaseRawTag (rel : Release) : Str :=
  pyOrStr rel.tag_name (pyOrStr rel.name unknownStr)

/-- `(release.get("author") or {}).get("login") or
(release.get("author") or {}).get("name") or "unknown"`. -/
def releaseAuthorLogin (rel : Release) : Str :=
  pyOrStr (rel.author.bind (·.login)) (pyOrStr (rel.author.bind (·.aname)) unknownStr)

/-- The backup-tag derivation of `main` (lines 212-221): sanitize the four
components with the default bound 80, compose
`{owner}_{repo}-v{version}-by-{author}`, and truncate the whole to 100
characters (re-stripping trailing separators exposed by the cut). -/
def backupTag (owner repo : Str) (rel : Release) : Str :=
  let raw_tag := releaseRawTag rel
  let simple_tag := normalize_tag raw_tag
  let author_login := releaseAuthorLogin rel
  let owner_s := sanitize_for_tag owner
  let repo_s := sanitize_for_tag repo
  let ver_s := sanitize_for_tag simple_tag
  let author_s := sanitize_for_tag author_login
  let tag := owner_s ++ '_' :: repo_s ++ "-v".toList ++ ver_s ++ "-by-".toList ++ author_s
  if 100 < tag.length then rstripSeps (tag.take 100) else tag

/-- `get_latest_release(owner, repo, allow_prerelease)` as a pure function of
the two HTTP responses it may consult: the direct `releases/latest` lookup
(status and body, consulted only when prereleases are disallowed) and the
`releases` listing (status and body). -/
def get_latest_release (allow_prerelease : Bool)
    (latestStatus : Nat) (latestRel : Release)
    (listStatus : Nat) (rels : List Release) : Option Release :=
  if !allow_prerelease && latestStatus = 200 then some latestRel
  else if listStatus ≠ 200 then none
  else rels.find? (fun rel => !rel.draft && !(rel.prerelease && !allow_prerelease))

/-- Remote actions `create_github_release_and_upload` can perform against the
backup repository. `deleteRelease` is never emitted: the function has no
rollback path. -/
inductive PubAction where
  | createRelease
  | uploadAsset
  | deleteRelease
deriving DecidableEq

def lbrace : Char := Char.ofNat 123

/-- `create_github_release_and_upload` as a pure function of the creation
response (status and raw `upload_url` field) and the upload response status.
Returns the boolean result together with the list of remote actions
attempted, in order. `upload_url.split("{")[0]` is the prefix before the
first brace. -/
def create_github_release_and_upload (createStatus : Nat) (uploadUrlRaw : Str)
    (uploadStatus : Nat) : Bool × List PubAction :=
  if createStatus ≠ 200 ∧ createStatus ≠ 201 then
    (false, [PubAction.createRelease])
  else
    let upload_url := uploadUrlRaw.takeWhile (· ≠ lbrace)
    if upload_url = [] then (false, [PubAction.createRelease])
    else ((uploadStatus = 200 || uploadStatus = 201),
          [PubAction.createRelease, PubAction.uploadAsset])

/-- `download_asset_to_dir(asset, dest_dir)` as a pure function of two
oracles for the streaming GET: whether it succeeds (status in 200/302/307)
and the bytes it returns. Yields the file written into the scratch
directory (name and content), or `none` when the asset is skipped
(no download url) or the download fails. -/
def download_asset_to_dir (dlOk : Asset → Bool) (dlContent : Asset → Str)
    (a : Asset) : Option (Str × Str) :=
  let name := pyOrStr a.name "unnamed".toList
  match pyOrOpt a.browser_download_url a.url with
  | none => none
  | some _ => if dlOk a then some (name, dlContent a) else none

/-- Python `str(bool)`. -/
def pyBoolStr (b : Bool) : Str :=
  if b then "True".toList else "False".toList

/-- The `notes_header` f-string of `main` (lines 235-244). -/
def notesHeader (owner repo : Str) (rel : Release) : Str :=
  "Source: ".toList ++ owner ++ "/".toList ++ repo ++ "\n".toList
  ++ "Original tag: ".toList ++ releaseRawTag rel ++ "\n".toList
  ++ "Original name: ".toList ++ pyOrStr rel.name [] ++ "\n".toList
  ++ "Author: ".toList
    ++ pyOrStr (rel.author.bind (·.login)) (pyOrStr (rel.author.bind (·.aname)) [])
    ++ "\n".toList
  ++ "Original URL: ".toList ++ pyOrStr rel.html_url [] ++ "\n".toList
  ++ "Published at: ".toList ++ pyOrStr rel.published_at [] ++ "\n".toList
  ++ "Prerelease: ".toList ++ pyBoolStr rel.prerelease ++ "\n".toList
  ++ "\n---\n\n".toList

/-- Content written to `release-notes.txt`: header followed by
`release.get("body") or ""`. -/
def notesContent (owner repo : Str) (rel : Release) : Str :=
  notesHeader owner repo rel ++ pyOrStr rel.body []

def notesFileName : Str := "release-notes.txt".toList

/-- The files present in the per-target scratch directory when
`create_7z_archive` is invoked on it (name, content): one file per
successfully downloaded asset, plus the synthesized notes file. These are
exactly the files the archive packs (7z excludes its own output file). -/
def scratchFiles (dlOk : Asset → Bool) (dlContent : Asset → Str)
    (owner repo : Str) (rel : Release) : List (Str × Str) :=
  rel.assets.filterMap (download_asset_to_dir dlOk dlContent)
    ++ [(notesFileName, notesContent owner repo rel)]

/-- Environment outcomes of the external 7z invocation: the utility may be
absent from PATH, exit non-zero, or succeed. -/
inductive ArchResult where
  | toolMissing
  | nonZeroExit
  | ok
deriving DecidableEq

/-- `create_7z_archive`: raises `RuntimeError` when `shutil.which` finds
none of 7z/7za/7zr, propagates the archiver's `CalledProcessError` on a
non-zero exit, and otherwise returns. -/
def create_7z_archive (env : ArchResult) : Except PyExn Unit :=
  match env with
  | ArchResult.toolMissing => Except.error PyExn.runtimeError
  | ArchResult.nonZeroExit => Except.error PyExn.calledProcessError
  | ArchResult.ok => Except.ok ()

/-- Per-target outcome printed/logged by `main`'s loop body. -/
inductive TargetOutcome where
  | invalidSkipped
  | noRelease
  | alreadyBackedUp
  | archiveFailed
  | uploaded
  | uploadFailed
deriving DecidableEq

/-- The external world one loop iteration of `main` observes: the target
entry and oracles for every network/filesystem/subprocess interaction. -/
structure StepEnv where
  target : PyDict
  release : Option Release
  existsInBackup : Str → Bool
  dlOk : Asset → Bool
  dlContent : Asset → Str
  arch : ArchResult
  createStatus : Nat
  uploadUrlRaw : Str
  uploadStatus : Nat

/-- One iteration of `main`'s target loop. `Except.error` is an exception
that escapes the loop body (only `subprocess.CalledProcessError` is caught,
at the `create_7z_archive` call) and therefore aborts the whole run. -/
def processTarget (e : StepEnv) : Except PyExn TargetOutcome :=
  match parse_target e.target with
  | Except.error ex => Except.error ex
  | Except.ok none => Except.ok TargetOutcome.invalidSkipped
  | Except.ok (some (owner, repo_name, _allow)) =>
    if owner = [] ∨ repo_name = [] then Except.ok TargetOutcome.invalidSkipped
    else
      match e.release with
      | none => Except.ok TargetOutcome.noRelease
      | some rel =>
        if e.existsInBackup (backupTag owner repo_name rel) then
          Except.ok TargetOutcome.alreadyBackedUp
        else
          match create_7z_archive e.arch with
          | Except.error PyExn.calledProcessError =>
            Except.ok TargetOutcome.archiveFailed
          | Except.error ex => Except.error ex
          | Except.ok () =>
            if (create_github_release_and_upload e.createStatus e.uploadUrlRaw
                e.uploadStatus).1
            then Except.ok TargetOutcome.uploaded
            else Except.ok TargetOutcome.uploadFailed

/-- `main`'s loop over the targets list: an uncaught exception in one
iteration aborts the run; otherwise each target contributes one outcome. -/
def runTargets : List StepEnv → Except PyExn (List TargetOutcome)
  | [] => Except.ok []
  | e :: rest =>
    match processTarget e with
    | Except.error ex => Except.error ex
    | Except.ok o => (runTargets rest).map (o :: ·)

/-! ### Helper lemmas about the string pipeline -/

theorem unknownStr_eq : unknownStr = ['u', 'n', 'k', 'n', 'o', 'w', 'n'] := rfl

theorem allowed_unknown (c : Char) (h : c ∈ unknownStr) : allowedChar c = true := by
  rw [unknownStr_eq] at h
  simp only [List.mem_cons, List.not_mem_nil, or_false] at h
  rcases h with rfl | rfl | rfl | rfl | rfl | rfl | rfl <;> decide

theorem length_rstripBy_le (p : Char → Bool) (l : Str) :
    (rstripBy p l).length ≤ l.length := by
  induction l with
  | nil => simp [rstripBy]
  | cons c rest ih =>
    simp only [rstripBy]
    split
    · simp
    · simp only [List.length_cons]
      exact Nat.succ_le_succ ih

theorem sublist_rstripBy (p : Char → Bool) (l : Str) :
    List.Sublist (rstripBy p l) l := by
  induction l with
  | nil => simp [rstripBy]
  | cons c rest ih =>
    simp only [rstripBy]
    split
    · exact List.nil_sublist _
    · exact List.Sublist.cons₂ c ih

theorem head?_rstripBy (p : Char → Bool) (l : Str) (c : Char)
    (h : (rstripBy p l).head? = some c) : l.head? = some c := by
  cases l with
  | nil => simp [rstripBy] at h
  | cons a rest =>
    simp only [rstripBy] at h
    split at h
    · simp at h
    · simp only [List.head?_cons, Option.some.injEq] at h
      simp [h]

theorem getLast?_rstripBy (p : Char → Bool) (l : Str) (c : Char)
    (h : (rstripBy p l).getLast? = some c) : p c = false := by
  induction l with
  | nil => simp [rstripBy] at h
  | cons a rest ih =>
    simp only [rstripBy] at h
    split at h
    · simp at h
    · rename_i hcond
      rcases hr : rstripBy p rest with _ | ⟨b, rbs⟩
      · rw [hr] at h
        simp only [List.getLast?_singleton, Option.some.injEq] at h
        subst h
        rw [hr] at hcond
        simpa using hcond
      · rw [hr] at h
        rw [List.getLast?_cons_cons] at h
        apply ih
        rw [hr]
        exact h

theorem rstripBy_eq_self_of_getLast (p : Char → Bool) (l : Str)
    (h : ∀ c, l.getLast? = some c → p c = false) : rstripBy p l = l := by
  induction l with
  | nil => simp [rstripBy]
  | cons a rest ih =>
    simp only [rstripBy]
    rcases hrest : rest with _ | ⟨b, bs⟩
    · subst hrest
      have : p a = false := h a rfl
      simp [rstripBy, this]
    · rw [← hrest]
      have hr : rstripBy p rest = rest := by
        apply ih
        intro c hc
        apply h
        rw [hrest]
        rw [List.getLast?_cons_cons]
        rw [← hrest, hc]
      rw [hr, hrest]
      simp

theorem dropWhile_eq_self_of_head (p : Char → Bool) (l : Str)
    (h : ∀ c, l.head? = some c → p c = false) : l.dropWhile p = l := by
  cases l with
  | nil => rfl
  | cons a rest =>
    have : p a = false := h a (by simp)
    simp [List.dropWhile_cons, this]

theorem head?_dropWhile_eq_some (p : Char → Bool) (l : Str) (c : Char)
    (h : (l.dropWhile p).head? = some c) : p c = false := by
  have hm := List.head?_dropWhile_not p l
  rw [h] at hm
  exact hm

theorem head?_stripBy (p : Char → Bool) (l : Str) (c : Char)
    (h : (stripBy p l).head? = some c) : p c = false := by
  have h1 := head?_rstripBy p (lstripBy p l) c h
  exact head?_dropWhile_eq_some p l c h1

theorem getLast?_stripBy (p : Char → Bool) (l : Str) (c : Char)
    (h : (stripBy p l).getLast? = some c) : p c = false :=
  getLast?_rstripBy p (lstripBy p l) c h

theorem stripBy_eq_self (p : Char → Bool) (l : Str)
    (hh : ∀ c, l.head? = some c → p c = false)
    (hl : ∀ c, l.getLast? = some c → p c = false) : stripBy p l = l := by
  unfold stripBy lstripBy
  rw [dropWhile_eq_self_of_head p l hh]
  exact rstripBy_eq_self_of_getLast p l hl

theorem head?_of_stripBy_self (p : Char → Bool) (l : Str) (c : Char)
    (hfix : stripBy p l = l) (h : l.head? = some c) : p c = false := by
  apply head?_stripBy p l c
  rw [hfix]
  exact h

theorem getLast?_of_stripBy_self (p : Char → Bool) (l : Str) (c : Char)
    (hfix : stripBy p l = l) (h : l.getLast? = some c) : p c = false := by
  apply getLast?_stripBy p l c
  rw [hfix]
  exact h

theorem head?_take (l : Str) (n : Nat) (c : Char)
    (h : (l.take n).head? = some c) : l.head? = some c := by
  cases l with
  | nil => simp at h
  | cons a rest =>
    cases n with
    | zero => simp at h
    | succ m => simpa using h

theorem mem_subNonWordAux (b : Bool) (s : Str) (c : Char)
    (h : c ∈ subNonWordAux b s) : allowedChar c = true := by
  induction s generalizing b with
  | nil => simp [subNonWordAux] at h
  | cons a rest ih =>
    simp only [subNonWordAux] at h
    split at h
    · rename_i ha
      rcases List.mem_cons.mp h with rfl | hm
      · exact ha
      · exact ih false hm
    · split at h
      · exact ih true h
      · rcases List.mem_cons.mp h with rfl | hm
        · decide
        · exact ih true hm

theorem mem_collapseUnderscoresAux (b : Bool) (s : Str) (c : Char)
    (h : c ∈ collapseUnderscoresAux b s) : c ∈ s := by
  induction s generalizing b with
  | nil => simp [collapseUnderscoresAux] at h
  | cons a rest ih =>
    simp only [collapseUnderscoresAux] at h
    split at h
    · rename_i ha
      subst ha
      split at h
      · exact List.mem_cons_of_mem _ (ih true h)
      · rcases List.mem_cons.mp h with rfl | hm
        · exact List.mem_cons_self _ _
        · exact List.mem_cons_of_mem _ (ih true hm)
    · rcases List.mem_cons.mp h with rfl | hm
      · exact List.mem_cons_self _ _
      · exact List.mem_cons_of_mem _ (ih false hm)

theorem mem_sanitize_allowed (s : Str) (n : Nat) (c : Char)
    (h : c ∈ sanitize_for_tag s n) : allowedChar c = true := by
  simp only [sanitize_for_tag] at h
  split at h
  · exact allowed_unknown c h
  · split at h
    · split at h
      · exact allowed_unknown c h
      · have h1 : c ∈ (stripSeps (collapseUnderscores (subNonWord s))).take n :=
          (sublist_rstripBy _ _).mem h
        have h2 : c ∈ stripSeps (collapseUnderscores (subNonWord s)) :=
          (List.take_sublist _ _).mem h1
        have h3 : c ∈ lstripBy isTagSep (collapseUnderscores (subNonWord s)) :=
          (sublist_rstripBy _ _).mem h2
        have h4 : c ∈ collapseUnderscores (subNonWord s) :=
          (List.dropWhile_sublist _).mem h3
        exact mem_subNonWordAux false s c (mem_collapseUnderscoresAux false _ c h4)
    · split at h
      · exact allowed_unknown c h
      · have h3 : c ∈ lstripBy isTagSep (collapseUnderscores (subNonWord s)) :=
          (sublist_rstripBy _ _).mem h
        have h4 : c ∈ collapseUnderscores (subNonWord s) :=
          (List.dropWhile_sublist _).mem h3
        exact mem_subNonWordAux false s c (mem_collapseUnderscoresAux false _ c h4)

theorem sanitize_length_le (s : Str) (n : Nat) (hn : 7 ≤ n) :
    (sanitize_for_tag s n).length ≤ n := by
  simp only [sanitize_for_tag]
  split
  · simpa [unknownStr_eq] using hn
  · split
    · split
      · simpa [unknownStr_eq] using hn
      · calc (rstripSeps ((stripSeps (collapseUnderscores (subNonWord s))).take n)).length
            ≤ ((stripSeps (collapseUnderscores (subNonWord s))).take n).length :=
              length_rstripBy_le _ _
          _ ≤ n := by
              rw [List.length_take]
              exact Nat.min_le_left _ _
    · split
      · simpa [unknownStr_eq] using hn
      · rename_i hshort _
        exact Nat.le_of_not_lt hshort

theorem sanitize_ne_nil (s : Str) (n : Nat) : sanitize_for_tag s n ≠ [] := by
  simp only [sanitize_for_tag]
  split
  · simp [unknownStr_eq]
  · split
    · split
      · simp [unknownStr_eq]
      · assumption
    · split
      · simp [unknownStr_eq]
      · assumption

/-! ### C2: tag normalization -/

/-- C2 counterexample: `normalize_tag` is not idempotent. On `"vv1"` one
application yields `"v1"`, which still begins with `v`, so a second
application strips again and yields `"1"`. -/
theorem C2_counterexample :
    normalize_tag (normalize_tag "vv1".toList) ≠ normalize_tag "vv1".toList := by
  decide

/-- C2 (amended): each application of `normalize_tag` strips the leading
`v`/`V` case-insensitively and at most once (the result is the stripped
input, or its tail exactly when the stripped input begins with `v`/`V`);
`normalize_tag` is idempotent only on strings whose normalized form is
nonempty, whitespace-trimmed, and does not itself begin with `v`/`V`. -/
theorem C2_normalize_tag_amended (s : Str) :
    (s ≠ [] →
      (startsWithVee (pyStrip s) = false ∧ normalize_tag s = pyStrip s) ∨
      (startsWithVee (pyStrip s) = true ∧ normalize_tag s = (pyStrip s).tail))
    ∧ (normalize_tag s ≠ [] →
      pyStrip (normalize_tag s) = normalize_tag s →
      startsWithVee (normalize_tag s) = false →
      normalize_tag (normalize_tag s) = normalize_tag s) := by
  constructor
  · intro hs
    unfold normalize_tag
    rw [if_neg hs]
    cases hv : startsWithVee (pyStrip s) with
    | false => exact Or.inl ⟨rfl, by rw [if_neg (by simp [hv])]⟩
    | true => exact Or.inr ⟨rfl, by rw [if_pos (by simp [hv])]⟩
  · intro h1 h2 h3
    conv_lhs => rw [normalize_tag]
    rw [if_neg h1, h2, if_neg (by simp [h3])]

/-- C2 witness: on `" x1"` the normalized form `"x1"` satisfies the
idempotence side conditions, and a second application is the identity. -/
theorem C2_witness :
    normalize_tag (normalize_tag " x1".toList) = normalize_tag " x1".toList :=
  (C2_normalize_tag_amended " x1".toList).2 (by decide) (by decide) (by decide)

/-! ### C4 and C10: sanitization -/

/-- C4 counterexample: with length bound 3, the empty input yields the
placeholder `"unknown"`, whose length 7 exceeds the bound — so the output
is not bounded by every configured length bound. -/
theorem C4_counterexample :
    sanitize_for_tag [] 3 = unknownStr ∧ ¬((sanitize_for_tag [] 3).length ≤ 3) := by
  decide

/-- C4 (amended): for every input string and every length bound of at least
7 (the length of the placeholder `"unknown"`), `sanitize_for_tag` returns a
string of only allowed characters (word characters, dot, hyphen), of length
at most the bound, and never empty; an input whose sanitized core strips to
nothing yields the placeholder `"unknown"`. For bounds below 7 the
placeholder may exceed the bound. -/
theorem C4_sanitize_amended (s : Str) (bound : Nat) (hb : 7 ≤ bound) :
    (∀ c ∈ sanitize_for_tag s bound, allowedChar c = true)
    ∧ (sanitize_for_tag s bound).length ≤ bound
    ∧ sanitize_for_tag s bound ≠ []
    ∧ (stripSeps (collapseUnderscores (subNonWord s)) = [] →
        sanitize_for_tag s bound = unknownStr) := by
  refine ⟨fun c hc => mem_sanitize_allowed s bound c hc,
          sanitize_length_le s bound hb,
          sanitize_ne_nil s bound, ?_⟩
  intro h3
  simp only [sanitize_for_tag]
  split
  · rfl
  · rw [h3]
    simp

/-- C4 witness: the amended statement at input `"a b"` and the default
bound 80. -/
theorem C4_witness :
    (∀ c ∈ sanitize_for_tag "a b".toList 80, allowedChar c = true)
    ∧ (sanitize_for_tag "a b".toList 80).length ≤ 80
    ∧ sanitize_for_tag "a b".toList 80 ≠ []
    ∧ (stripSeps (collapseUnderscores (subNonWord "a b".toList)) = [] →
        sanitize_for_tag "a b".toList 80 = unknownStr) :=
  C4_sanitize_amended "a b".toList 80 (by decide)

/-- C10: for every input and every bound of at least 1, the output of
`sanitize_for_tag` never begins or ends with a separator (`.`, `_`, `-`):
edge separators are stripped, and separators exposed by truncation are
stripped again before the result (or the placeholder) is returned. -/
theorem C10_sanitize_no_edge_separators (s : Str) (bound : Nat) (hb : 1 ≤ bound) :
    (∀ c, (sanitize_for_tag s bound).head? = some c → isTagSep c = false)
    ∧ (∀ c, (sanitize_for_tag s bound).getLast? = some c → isTagSep c = false) := by
  have hunkHead : ∀ c, unknownStr.head? = some c → isTagSep c = false := by
    intro c hc
    rw [unknownStr_eq] at hc
    simp only [List.head?_cons, Option.some.injEq] at hc
    subst hc
    decide
  have hunkLast : ∀ c, unknownStr.getLast? = some c → isTagSep c = false := by
    intro c hc
    rw [unknownStr_eq] at hc
    simp only [show (['u', 'n', 'k', 'n', 'o', 'w', 'n'] : Str).getLast? = some 'n' from rfl,
      Option.some.injEq] at hc
    subst hc
    decide
  constructor
  · intro c hc
    simp only [sanitize_for_tag] at hc
    split at hc
    · exact hunkHead c hc
    · split at hc
      · split at hc
        · exact hunkHead c hc
        · have h1 := head?_rstripBy _ _ _ hc
          have h2 := head?_take _ _ _ h1
          exact head?_stripBy isTagSep _ c h2
      · split at hc
        · exact hunkHead c hc
        · exact head?_stripBy isTagSep _ c hc
  · intro c hc
    simp only [sanitize_for_tag] at hc
    split at hc
    · exact hunkLast c hc
    · split at hc
      · split at hc
        · exact hunkLast c hc
        · exact getLast?_rstripBy _ _ _ hc
      · split at hc
        · exact hunkLast c hc
        · exact getLast?_stripBy isTagSep _ c hc

/-- C10 witness: the statement at input `"-a-"` and the default bound 80. -/
theorem C10_witness :
    (∀ c, (sanitize_for_tag "-a-".toList 80).head? = some c → isTagSep c = false)
    ∧ (∀ c, (sanitize_for_tag "-a-".toList 80).getLast? = some c → isTagSep c = false) :=
  C10_sanitize_no_edge_separators "-a-".toList 80 (by decide)

/-! ### C5: release fetch fallback -/

/-- C5: whenever the listing fallback is reached (prereleases disallowed and
the direct lookup reported not-found, or prereleases allowed so the direct
lookup is skipped), `get_latest_release` returns the first listed release
that is not a draft and not a disallowed prerelease, and `none` when the
listing call is non-successful, the list is empty, or none qualify; any
returned release is never a draft and is a prerelease only if allowed. -/
theorem C5_get_latest_release_fallback (allow : Bool) (lSt : Nat) (lRel : Release)
    (listSt : Nat) (rels : List Release)
    (hfb : (allow = false ∧ lSt = 404) ∨ allow = true) :
    get_latest_release allow lSt lRel listSt rels =
      (if listSt = 200
       then rels.find? (fun rel => !rel.draft && !(rel.prerelease && !allow))
       else none)
    ∧ (∀ r, get_latest_release allow lSt lRel listSt rels = some r →
        r.draft = false ∧ (r.prerelease = true → allow = true)) := by
  have hmain : get_latest_release allow lSt lRel listSt rels =
      (if listSt = 200
       then rels.find? (fun rel => !rel.draft && !(rel.prerelease && !allow))
       else none) := by
    unfold get_latest_release
    rcases hfb with ⟨ha, hl⟩ | ha
    · subst ha
      subst hl
      by_cases h200 : listSt = 200
      · simp [h200]
      · simp [h200]
    · subst ha
      by_cases h200 : listSt = 200
      · simp [h200]
      · simp [h200]
  refine ⟨hmain, fun r hr => ?_⟩
  rw [hmain] at hr
  by_cases h200 : listSt = 200
  · rw [if_pos h200] at hr
    have hp := List.find?_some hr
    simp only [Bool.and_eq_true, Bool.not_eq_true'] at hp
    refine ⟨hp.1, fun hpre => ?_⟩
    rcases hp with ⟨_, h2⟩
    cases allow with
    | true => rfl
    | false => simp [hpre] at h2
  · rw [if_neg h200] at hr
    cases hr

/-- A stable (non-draft, non-prerelease) sample release. -/
def stableRel : Release :=
  { tag_name := some "v1.0".toList, name := some "one".toList, body := some "notes".toList,
    draft := false, prerelease := false, published_at := none, created_at := none,
    html_url := none, author := none, assets := [] }

/-- A draft sample release. -/
def draftRel : Release := { stableRel with draft := true }

/-- A prerelease sample release. -/
def preRel : Release := { stableRel with prerelease := true }

/-- C5 witness: prereleases disallowed, direct lookup 404, listing 200 with
a draft, then a prerelease, then a stable release: the stable one is chosen. -/
theorem C5_witness :
    get_latest_release false 404 draftRel 200 [draftRel, preRel, stableRel] =
      (if (200 : Nat) = 200
       then [draftRel, preRel, stableRel].find?
              (fun rel => !rel.draft && !(rel.prerelease && !false))
       else none)
    ∧ (∀ r, get_latest_release false 404 draftRel 200 [draftRel, preRel, stableRel] = some r →
        r.draft = false ∧ (r.prerelease = true → false = true)) :=
  C5_get_latest_release_fallback false 404 draftRel 200 [draftRel, preRel, stableRel]
    (Or.inl ⟨rfl, rfl⟩)

/-! ### C8: two-step publishing, no rollback -/

/-- C8: if release creation returns a non-success status, the function
reports failure and never attempts the asset upload; if creation succeeds
(with a usable upload URL) but the upload fails, failure is reported while
the created release is left in place — the action trace is exactly
create-then-upload, with no compensating delete ever issued. -/
theorem C8_publish_two_step (cs : Nat) (url : Str) (us : Nat) :
    (cs ≠ 200 ∧ cs ≠ 201 →
      create_github_release_and_upload cs url us = (false, [PubAction.createRelease]))
    ∧ (¬(cs ≠ 200 ∧ cs ≠ 201) → url.takeWhile (· ≠ lbrace) ≠ [] →
        us ≠ 200 ∧ us ≠ 201 →
        create_github_release_and_upload cs url us =
          (false, [PubAction.createRelease, PubAction.uploadAsset]))
    ∧ PubAction.deleteRelease ∉ (create_github_release_and_upload cs url us).2 := by
  refine ⟨?_, ?_, ?_⟩
  · intro hcs
    unfold create_github_release_and_upload
    rw [if_pos hcs]
  · intro hcs hurl hus
    unfold create_github_release_and_upload
    rw [if_neg hcs, if_neg hurl]
    have h1 : (us = 200 || us = 201) = false := by
      simp [hus.1, hus.2]
    rw [h1]
  · simp only [create_github_release_and_upload]
    split
    · simp
    · split
      · simp
      · simp

/-- C8 witness: creation fails with 422 (duplicate tag): no upload attempt;
creation 201 with upload 500: failure with the release left in place. -/
theorem C8_witness :
    (create_github_release_and_upload 422 "https://u".toList 200 =
      (false, [PubAction.createRelease]))
    ∧ (create_github_release_and_upload 201 "https://u".toList 500 =
      (false, [PubAction.createRelease, PubAction.uploadAsset])) :=
  ⟨(C8_publish_two_step 422 "https://u".toList 200).1 (by decide),
   (C8_publish_two_step 201 "https://u".toList 500).2.1 (by decide) (by decide) (by decide)⟩

/-! ### C6: backup tag derivation -/

/-- C6: the backup tag is a deterministic function of `(owner, repo,
release)`; it is composed as `{owner}_{repo}-v{version}-by-{author}` from
the four components sanitized at the default bound 80 (so each component
has length at most 80), and the composed tag is truncated to at most 100
characters. -/
theorem C6_backupTag_deterministic_bounded (owner repo : Str) (rel : Release) :
    (∀ owner2 repo2 rel2, owner2 = owner → repo2 = repo → rel2 = rel →
      backupTag owner2 repo2 rel2 = backupTag owner repo rel)
    ∧ (sanitize_for_tag owner).length ≤ 80
    ∧ (sanitize_for_tag repo).length ≤ 80
    ∧ (sanitize_for_tag (normalize_tag (releaseRawTag rel))).length ≤ 80
    ∧ (sanitize_for_tag (releaseAuthorLogin rel)).length ≤ 80
    ∧ (backupTag owner repo rel).length ≤ 100
    ∧ backupTag owner repo rel =
        (if 100 < (sanitize_for_tag owner ++ '_' :: sanitize_for_tag repo
              ++ "-v".toList ++ sanitize_for_tag (normalize_tag (releaseRawTag rel))
              ++ "-by-".toList ++ sanitize_for_tag (releaseAuthorLogin rel)).length
         then rstripSeps ((sanitize_for_tag owner ++ '_' :: sanitize_for_tag repo
              ++ "-v".toList ++ sanitize_for_tag (normalize_tag (releaseRawTag rel))
              ++ "-by-".toList ++ sanitize_for_tag (releaseAuthorLogin rel)).take 100)
         else sanitize_for_tag owner ++ '_' :: sanitize_for_tag repo
              ++ "-v".toList ++ sanitize_for_tag (normalize_tag (releaseRawTag rel))
              ++ "-by-".toList ++ sanitize_for_tag (releaseAuthorLogin rel)) := by
  refine ⟨fun o2 r2 rel2 ho hr hrel => by rw [ho, hr, hrel],
    sanitize_length_le owner 80 (by decide),
    sanitize_length_le repo 80 (by decide),
    sanitize_length_le _ 80 (by decide),
    sanitize_length_le _ 80 (by decide),
    ?_, rfl⟩
  simp only [backupTag]
  split
  · calc (rstripSeps ((sanitize_for_tag owner ++ '_' :: sanitize_for_tag repo
          ++ "-v".toList ++ sanitize_for_tag (normalize_tag (releaseRawTag rel))
          ++ "-by-".toList ++ sanitize_for_tag (releaseAuthorLogin rel)).take 100)).length
        ≤ ((sanitize_for_tag owner ++ '_' :: sanitize_for_tag repo
          ++ "-v".toList ++ sanitize_for_tag (normalize_tag (releaseRawTag rel))
          ++ "-by-".toList ++ sanitize_for_tag (releaseAuthorLogin rel)).take 100).length :=
          length_rstripBy_le _ _
      _ ≤ 100 := by
          rw [List.length_take]
          exact Nat.min_le_left _ _
  · rename_i hlen
    exact Nat.le_of_not_lt hlen

/-- C6 witness: the statement instantiated at `acme`, `tool` and the sample
stable release. -/
theorem C6_witness :
    backupTag "acme".toList "tool".toList stableRel = backupTag "acme".toList "tool".toList stableRel
    ∧ (backupTag "acme".toList "tool".toList stableRel).length ≤ 100 :=
  ⟨(C6_backupTag_deterministic_bounded "acme".toList "tool".toList stableRel).1 _ _ _ rfl rfl rfl,
   (C6_backupTag_deterministic_bounded "acme".toList "tool".toList stableRel).2.2.2.2.2.1⟩

/-! ### C9: synthesized release-notes file -/

/-- C9: for every processed release the scratch directory (whose contents
the archiver packs) holds the synthesized `release-notes.txt`, whose content
is the metadata header followed by the release body (empty string when the
body is absent); for a release with zero assets the directory — and hence
the archive — contains exactly that one file. -/
theorem C9_notes_file (dlOk : Asset → Bool) (dlContent : Asset → Str)
    (owner repo : Str) (rel : Release) :
    (notesFileName, notesContent owner repo rel) ∈ scratchFiles dlOk dlContent owner repo rel
    ∧ notesContent owner repo rel = notesHeader owner repo rel ++ pyOrStr rel.body []
    ∧ (rel.assets = [] →
        scratchFiles dlOk dlContent owner repo rel =
          [(notesFileName, notesContent owner repo rel)]) := by
  refine ⟨?_, rfl, ?_⟩
  · unfold scratchFiles
    exact List.mem_append_right _ (List.mem_singleton.mpr rfl)
  · intro hassets
    unfold scratchFiles
    rw [hassets]
    rfl

/-- C9 witness: the sample stable release with its asset list emptied — the
scratch directory contains only the notes file. -/
theorem C9_witness :
    scratchFiles (fun _ => true) (fun _ => []) "acme".toList "tool".toList stableRel =
      [(notesFileName, notesContent "acme".toList "tool".toList stableRel)] :=
  (C9_notes_file (fun _ => true) (fun _ => []) "acme".toList "tool".toList stableRel).2.2 rfl

/-! ### C3: malformed target entries -/

/-- C3 counterexample: an entry whose `owner` and `repo` fields hold
integers makes `parse_target` reach `t["owner"].strip()` /
`t["repo"].strip()` on a non-string, raising an uncaught `AttributeError`
that aborts the whole run — parsing is not exception-free on every
dictionary-shaped input. -/
theorem C3_counterexample :
    parse_target [(keyOwner, PyVal.vInt 1), (keyRepo, PyVal.vInt 2)] =
      Except.error PyExn.attributeError := rfl

/-- C3 (amended): for every entry whose `owner`, `user` and `repo` values,
where present, are strings, `parse_target` never raises: missing or empty
required fields produce the skip triple, and a skipped entry lets the run
proceed to the next target. An entry with a non-string value at a consulted
field, however, raises `AttributeError` and aborts the run. -/
theorem C3_parse_target_amended (t : PyDict)
    (hstr : ∀ k v, (k = keyOwner ∨ k = keyUser ∨ k = keyRepo) →
        getKey t k = some v → ∃ s, v = PyVal.vStr s) :
    (∀ ex, parse_target t ≠ Except.error ex)
    ∧ (∀ (e : StepEnv) (rest : List StepEnv), e.target = t →
        parse_target t = Except.ok none →
        runTargets (e :: rest) =
          (runTargets rest).map (TargetOutcome.invalidSkipped :: ·)) := by
  constructor
  · intro ex hex
    rcases hrep : getKey t keyRepo with _ | v
    case none => simp [parse_target, hrep] at hex
    case some =>
      obtain ⟨s, rfl⟩ := hstr keyRepo v (Or.inr (Or.inr rfl)) hrep
      by_cases hsl : '/' ∈ pyStrip s
      · simp [parse_target, hrep, hsl] at hex
      · rcases hown : getKey t keyOwner with _ | w
        · rcases huser : getKey t keyUser with _ | u
          · simp [parse_target, hrep, hsl, hown, huser, pyTruthy] at hex
          · obtain ⟨su, rfl⟩ := hstr keyUser u (Or.inr (Or.inl rfl)) huser
            by_cases hsu : su = []
            · subst hsu
              simp [parse_target, hrep, hsl, hown, huser, pyTruthy] at hex
            · simp [parse_target, hrep, hsl, hown, huser, pyTruthy, hsu] at hex
        · obtain ⟨so, rfl⟩ := hstr keyOwner w (Or.inl rfl) hown
          by_cases hso : so = []
          · subst hso
            rcases huser : getKey t keyUser with _ | u
            · simp [parse_target, hrep, hsl, hown, huser, pyTruthy] at hex
            · obtain ⟨su, rfl⟩ := hstr keyUser u (Or.inr (Or.inl rfl)) huser
              by_cases hsu : su = []
              · subst hsu
                simp [parse_target, hrep, hsl, hown, huser, pyTruthy] at hex
              · simp [parse_target, hrep, hsl, hown, huser, pyTruthy, hsu] at hex
          · simp [parse_target, hrep, hsl, hown, pyTruthy, hso] at hex
  · intro e rest het hok
    simp [runTargets, processTarget, het, hok]

/-- C3 witness: a well-formed separate-fields entry parses without raising
an `AttributeError`. -/
theorem C3_witness :
    parse_target [(keyOwner, PyVal.vStr "acme".toList), (keyRepo, PyVal.vStr "tool".toList)]
      ≠ Except.error PyExn.attributeError :=
  (C3_parse_target_amended
    [(keyOwner, PyVal.vStr "acme".toList), (keyRepo, PyVal.vStr "tool".toList)]
    (by
      intro k v hk hv
      rcases hk with rfl | rfl | rfl
      · rw [show getKey [(keyOwner, PyVal.vStr "acme".toList),
            (keyRepo, PyVal.vStr "tool".toList)] keyOwner =
            some (PyVal.vStr "acme".toList) from rfl] at hv
        exact ⟨"acme".toList, (Option.some.inj hv).symm⟩
      · rw [show getKey [(keyOwner, PyVal.vStr "acme".toList),
            (keyRepo, PyVal.vStr "tool".toList)] keyUser = none from rfl] at hv
        cases hv
      · rw [show getKey [(keyOwner, PyVal.vStr "acme".toList),
            (keyRepo, PyVal.vStr "tool".toList)] keyRepo =
            some (PyVal.vStr "tool".toList) from rfl] at hv
        exact ⟨"tool".toList, (Option.some.inj hv).symm⟩)).1 PyExn.attributeError

/-! ### C1: archiver failure handling -/

/-- A loop-iteration environment for a well-formed target whose release is
new and whose archiver invocation succeeds. -/
def envBase : StepEnv :=
  { target := [(keyRepo, PyVal.vStr "acme/tool".toList)],
    release := some stableRel,
    existsInBackup := fun _ => false,
    dlOk := fun _ => true,
    dlContent := fun _ => [],
    arch := ArchResult.ok,
    createStatus := 201,
    uploadUrlRaw := "https://u".toList,
    uploadStatus := 201 }

/-- `envBase`, but 7z/7za/7zr are absent from PATH. -/
def envToolMissing : StepEnv := { envBase with arch := ArchResult.toolMissing }

/-- `envBase`, but the archiver subprocess exits non-zero. -/
def envNonZero : StepEnv := { envBase with arch := ArchResult.nonZeroExit }

/-- C1 counterexample: with the archiving utility absent on the first
target, `create_7z_archive`'s `RuntimeError` is not caught by the
`except subprocess.CalledProcessError` handler, so the whole run aborts —
the second target is never processed, contrary to the claim that subsequent
targets in the same run are still processed. -/
theorem C1_counterexample :
    runTargets [envToolMissing, envBase] = Except.error PyExn.runtimeError := rfl

/-- C1 (amended): if the archiver subprocess exits non-zero, processing of
the current target fails (`CalledProcessError` is caught) and every
subsequent target in the run is still processed; but if the archiving
utility is unavailable on PATH, the raised `RuntimeError` escapes the loop
and the whole run aborts. -/
theorem C1_archiver_failure_amended (e : StepEnv) (rest : List StepEnv)
    (o r : Str) (al : Bool) (rel : Release)
    (hp : parse_target e.target = Except.ok (some (o, r, al)))
    (ho : o ≠ []) (hr : r ≠ [])
    (hrel : e.release = some rel)
    (hex : e.existsInBackup (backupTag o r rel) = false) :
    (e.arch = ArchResult.nonZeroExit →
      runTargets (e :: rest) = (runTargets rest).map (TargetOutcome.archiveFailed :: ·))
    ∧ (e.arch = ArchResult.toolMissing →
      runTargets (e :: rest) = Except.error PyExn.runtimeError) := by
  constructor <;> intro ha <;>
    simp [runTargets, processTarget, hp, ho, hr, hrel, hex, ha, create_7z_archive]

/-- C1 witness: a non-zero archiver exit on a singleton run yields one
failed-target outcome and the run completes. -/
theorem C1_witness :
    runTargets [envNonZero] = Except.ok [TargetOutcome.archiveFailed] := by
  have h := C1_archiver_failure_amended envNonZero [] "acme".toList "tool".toList false
    stableRel rfl (by decide) (by decide) rfl rfl
  rw [h.1 rfl]
  rfl

/-! ### C7: input-shape independence of target parsing -/

/-- The optional prerelease-flag entry of a target dict (first accepted key
name), shared verbatim by both input shapes under comparison. -/
def allowTail (ap : Option PyVal) : PyDict :=
  match ap with
  | some v => [("allow_prerelease".toList, v)]
  | none => []

/-- The prerelease flag `parse_target` derives from `allowTail ap`. -/
def allowFromOpt (ap : Option PyVal) : Bool :=
  match ap with
  | some v => pyTruthy v
  | none => false

theorem splitFirstSlash_append (o r : Str) (hos : '/' ∉ o) :
    splitFirstSlash (o ++ '/' :: r) = (o, r) := by
  induction o with
  | nil => simp [splitFirstSlash]
  | cons a os ih =>
    have ha : a ≠ '/' := fun h => hos (h ▸ List.mem_cons_self a os)
    simp only [List.cons_append, splitFirstSlash, List.append_eq]
    rw [if_neg ha, ih (fun h => hos (List.mem_cons_of_mem a h))]

theorem pyStrip_append_slash (o r : Str) (ho : o ≠ []) (hr : r ≠ [])
    (hoStrip : pyStrip o = o) (hrStrip : pyStrip r = r) :
    pyStrip (o ++ '/' :: r) = o ++ '/' :: r := by
  apply stripBy_eq_self
  · intro c hc
    rcases o with _ | ⟨a, os⟩
    · exact absurd rfl ho
    · simp only [List.cons_append, List.head?_cons, Option.some.injEq] at hc
      subst hc
      exact head?_of_stripBy_self pyIsSpace (a :: os) a hoStrip rfl
  · intro c hc
    have h1 : (o ++ '/' :: r).getLast? = r.getLast? := by
      rw [List.getLast?_append_of_ne_nil o (by simp)]
      cases r with
      | nil => exact absurd rfl hr
      | cons b bs => exact List.getLast?_cons_cons
    rw [h1] at hc
    exact getLast?_of_stripBy_self pyIsSpace r c hrStrip hc

theorem parse_target_combined_shape (o r : Str) (ap : Option PyVal)
    (ho : o ≠ []) (hr : r ≠ [])
    (hos : '/' ∉ o) (hrs : '/' ∉ r)
    (hoStrip : pyStrip o = o) (hrStrip : pyStrip r = r) :
    parse_target ((keyRepo, PyVal.vStr (o ++ '/' :: r)) :: allowTail ap) =
      Except.ok (some (o, r, allowFromOpt ap)) := by
  have hget : getKey ((keyRepo, PyVal.vStr (o ++ '/' :: r)) :: allowTail ap) keyRepo
      = some (PyVal.vStr (o ++ '/' :: r)) := rfl
  have hallow : parseAllow ((keyRepo, PyVal.vStr (o ++ '/' :: r)) :: allowTail ap)
      = allowFromOpt ap := by cases ap <;> rfl
  have hmem : '/' ∈ o ++ '/' :: r := List.mem_append.mpr (Or.inr (List.mem_cons_self _ _))
  simp only [parse_target, hget, pyStrip_append_slash o r ho hr hoStrip hrStrip, hallow]
  rw [if_pos hmem, splitFirstSlash_append o r hos]
  simp [hoStrip, hrStrip]

theorem parse_target_separate_shape (o r : Str) (ap : Option PyVal)
    (ho : o ≠ []) (hrs : '/' ∉ r)
    (hoStrip : pyStrip o = o) (hrStrip : pyStrip r = r) :
    parse_target ((keyOwner, PyVal.vStr o) :: (keyRepo, PyVal.vStr r) :: allowTail ap) =
      Except.ok (some (o, r, allowFromOpt ap)) := by
  have hget2 : getKey ((keyOwner, PyVal.vStr o) :: (keyRepo, PyVal.vStr r) :: allowTail ap)
      keyRepo = some (PyVal.vStr r) := rfl
  have hgetO : getKey ((keyOwner, PyVal.vStr o) :: (keyRepo, PyVal.vStr r) :: allowTail ap)
      keyOwner = some (PyVal.vStr o) := rfl
  have hallow2 : parseAllow ((keyOwner, PyVal.vStr o) :: (keyRepo, PyVal.vStr r) :: allowTail ap)
      = allowFromOpt ap := by cases ap <;> rfl
  simp only [parse_target, hget2, hgetO, hallow2, hrStrip]
  rw [if_neg hrs]
  simp [pyTruthy, ho, hoStrip]

/-- C7: a repository denotable in both accepted shapes — nonempty,
slash-free, whitespace-trimmed owner and repo, with the same optional
prerelease-flag entry — parses to the same `(owner, repo, allow_prerelease)`
triple whether given as a combined `"owner/repo"` string or as separate
`owner`/`repo` fields. -/
theorem C7_parse_target_shape_independent (o r : Str) (ap : Option PyVal)
    (ho : o ≠ []) (hr : r ≠ [])
    (hos : '/' ∉ o) (hrs : '/' ∉ r)
    (hoStrip : pyStrip o = o) (hrStrip : pyStrip r = r) :
    parse_target ((keyRepo, PyVal.vStr (o ++ '/' :: r)) :: allowTail ap) =
      parse_target ((keyOwner, PyVal.vStr o) :: (keyRepo, PyVal.vStr r) :: allowTail ap)
    ∧ parse_target ((keyRepo, PyVal.vStr (o ++ '/' :: r)) :: allowTail ap) =
      Except.ok (some (o, r, allowFromOpt ap)) := by
  have h1 := parse_target_combined_shape o r ap ho hr hos hrs hoStrip hrStrip
  have h2 := parse_target_separate_shape o r ap ho hrs hoStrip hrStrip
  exact ⟨h1.trans h2.symm, h1⟩

/-- C7 witness: `acme/tool` with an explicit `allow_prerelease: true` entry
parses identically in both shapes. -/
theorem C7_witness :
    parse_target ((keyRepo, PyVal.vStr ("acme".toList ++ '/' :: "tool".toList))
        :: allowTail (some (PyVal.vBool true))) =
      parse_target ((keyOwner, PyVal.vStr "acme".toList)
        :: (keyRepo, PyVal.vStr "tool".toList) :: allowTail (some (PyVal.vBool true)))
    ∧ parse_target ((keyRepo, PyVal.vStr ("acme".toList ++ '/' :: "tool".toList))
        :: allowTail (some (PyVal.vBool true))) =
      Except.ok (some ("acme".toList, "tool".toList, allowFromOpt (some (PyVal.vBool true)))) :=
  C7_parse_target_shape_independent "acme".toList "tool".toList (some (PyVal.vBool true))
    (by decide) (by decide) (by decide) (by decide) (by decide) (by decide)
